import Mathlib

/-!
Shallow embedding of the persistent disk-backed cache implemented in
`internal/cache/cache.go` of the free-proxy-list-speed-checker repository.

Modelling conventions:
- The cache directory is modelled as a flat association list from file base
  names to decoded file contents (`FileSystem`).  All paths produced by the
  code live in one directory, and `scanDirectory` compares base names, so the
  directory prefix is dropped.
- `hashKey` (SHA-256 hex digest in the source) is an explicit function
  parameter; theorems that need the digest-named file to differ from the index
  file name take that inequality as a hypothesis, which holds for the real
  64-character hex digest against the 14-character name "root.index.bin".
- gob-encoded file contents are modelled by the inductive `GobValue`: the
  scalar wrapper map written by `Set`, the item slice written by `SetList`,
  the byte blob written by `GetWeb`, and the serialized root index.  Decoding
  a file into a target of a different shape is a decode error, matching gob.
- `loadFromFile` in the source returns a nil error when the file does not
  exist and leaves the decode target untouched; the per-target-type loaders
  below therefore return the zero value of the target (empty map, nil slice,
  nil bytes, empty index) on a missing file, with no error.
- File-system write errors (create/rename failures) and the temp-file dance
  of `saveToFile` are environmental I/O; the model represents the successful
  write, which is the path every claim conditions on.
- Wall-clock time is an explicit `now : Nat` argument to mutating operations.
- The HTTP fetch in `GetWeb` is an explicit `FetchOutcome` argument; the
  boolean in the result records whether the network was consulted.
-/

deriving instance DecidableEq for Except

namespace ProxyCache

/-- Suffix test modelling `strings.HasSuffix`, phrased over the character
lists of the strings so that it evaluates by kernel reduction. -/
def hasSuffix (s suffix : String) : Bool :=
  suffix.data.isSuffixOf s.data

/-- Entry type tag: `TypeScalar`, `TypeList`, `TypeWeb` in the source. -/
inductive EntryType where
  | scalar
  | list
  | web
deriving DecidableEq, Repr

/-- Metadata stored per key in the root index (type tag and timestamps). -/
structure Metadata where
  type      : EntryType
  createdAt : Nat
  updatedAt : Nat
deriving DecidableEq, Repr

/-- Decoded content of one file in the cache directory, mirroring the shapes
gob-serialized by the source: the string-keyed wrapper map of
`Set`, the item slice of `SetList`, the byte blob of `GetWeb`, and the
serialized `RootIndex`. -/
inductive GobValue (α : Type) where
  | mapVal   (entries : List (String × α))
  | listVal  (items : List α)
  | bytesVal (content : List Nat)
  | indexVal (entries : List (String × Metadata))
deriving DecidableEq, Repr

/-- Association-list lookup, modelling Go map indexing. -/
def alookup {β : Type} : List (String × β) → String → Option β
  | [], _ => none
  | (p, v) :: rest, k => if p = k then some v else alookup rest k

/-- Remove every binding of a key, a helper for map update. -/
def aremove {β : Type} : List (String × β) → String → List (String × β)
  | [], _ => []
  | (p, v) :: rest, k => if p = k then aremove rest k else (p, v) :: aremove rest k

/-- Association-list insert/overwrite, modelling Go map assignment. -/
def ainsert {β : Type} (l : List (String × β)) (k : String) (v : β) :
    List (String × β) :=
  (k, v) :: aremove l k

/-- Contents of the cache directory: file base name mapped to decoded content. -/
abbrev FileSystem (α : Type) := List (String × GobValue α)

/-- In-memory root index: logical key mapped to metadata
(`RootIndex.Entries` in the source). -/
abbrev Entries := List (String × Metadata)

/-- Full cache state: the in-memory index and the directory contents. -/
structure CacheState (α : Type) where
  entries : Entries
  files   : FileSystem α
deriving DecidableEq, Repr

/-- Errors surfaced by the cache operations, one constructor per distinct
error construction site in the source. -/
inductive CacheError where
  | decodeFailed      (path : String)
  | notFound          (key : String)
  | notScalarEntry    (key : String)
  | notListEntry      (key : String)
  | dataFieldMissing  (key : String)
  | downloadFailed    (url : String)
  | downloadBadStatus (url : String) (code : Nat)
  | readBodyFailed    (url : String)
deriving DecidableEq, Repr

/-- Predicate modelling `errors.Is(err, ErrNotFound)`: `GetList` wraps
`ErrNotFound` in its missing-key error. -/
def CacheError.isNotFound : CacheError → Bool
  | .notFound _ => true
  | _ => false

/-- Fixed name of the index file (`getRootIndexPath` returns
`dir/root.index.bin`; the directory prefix is dropped in the model). -/
def getRootIndexPath : String := "root.index.bin"

/-- Backing-file name for a key: hex digest of the key plus `.bin`
(`getFilePath`, with the directory prefix dropped). -/
def getFilePath (hashKey : String → String) (key : String) : String :=
  hashKey key ++ ".bin"

/-- Successful effect of `saveToFile`: the file now holds the encoded data.
The temp-file write plus atomic rename and its failure modes are
environmental I/O outside the model. -/
def saveToFile {α : Type} (fs : FileSystem α) (filePath : String)
    (data : GobValue α) : FileSystem α :=
  ainsert fs filePath data

/-- Load of `loadFromFile` into a `map[string]interface` wrapper target: a
missing file returns a nil error and leaves the target as the empty map; a
present file of a different shape is a decode error. -/
def loadFromFileMap {α : Type} (fs : FileSystem α) (filePath : String) :
    Except CacheError (List (String × α)) :=
  match alookup fs filePath with
  | none => .ok []
  | some (.mapVal m) => .ok m
  | some _ => .error (.decodeFailed filePath)

/-- Load of `loadFromFile` into an item-slice target: a missing file returns
a nil error and leaves the target as the nil slice. -/
def loadFromFileList {α : Type} (fs : FileSystem α) (filePath : String) :
    Except CacheError (List α) :=
  match alookup fs filePath with
  | none => .ok []
  | some (.listVal xs) => .ok xs
  | some _ => .error (.decodeFailed filePath)

/-- Load of `loadFromFile` into a byte-slice target: a missing file returns a
nil error and leaves the target as the nil byte slice. -/
def loadFromFileBytes {α : Type} (fs : FileSystem α) (filePath : String) :
    Except CacheError (List Nat) :=
  match alookup fs filePath with
  | none => .ok []
  | some (.bytesVal bs) => .ok bs
  | some _ => .error (.decodeFailed filePath)

/-- Load of `loadFromFile` into the root-index target, used by
`loadRootIndex`: a missing file leaves the preset empty index. -/
def loadFromFileIndex {α : Type} (fs : FileSystem α) (filePath : String) :
    Except CacheError Entries :=
  match alookup fs filePath with
  | none => .ok []
  | some (.indexVal e) => .ok e
  | some _ => .error (.decodeFailed filePath)

/-- Effect of `saveRootIndex`: serialize the in-memory index into the index
file. -/
def saveRootIndex {α : Type} (s : CacheState α) : CacheState α :=
  { s with files := saveToFile s.files getRootIndexPath (.indexVal s.entries) }

/-- State transition of a successful `Set`: write the wrapper
`map[string]interface{"data": value}` to the backing file, overwrite the
index entry with a `Scalar` tag and fresh timestamps, persist the index. -/
def Set {α : Type} (hashKey : String → String) (s : CacheState α)
    (key : String) (value : α) (now : Nat) : CacheState α :=
  let filePath := getFilePath hashKey key
  let s1 : CacheState α :=
    { s with files := saveToFile s.files filePath (.mapVal [("data", value)]) }
  let s2 : CacheState α :=
    { s1 with entries := ainsert s1.entries key ⟨.scalar, now, now⟩ }
  saveRootIndex s2

/-- Result and behaviour of `Get`: the `(value, found, error)` triple. -/
def Get {α : Type} (hashKey : String → String) (s : CacheState α)
    (key : String) : Option α × Bool × Option CacheError :=
  match alookup s.entries key with
  | none => (none, false, none)
  | some metadata =>
    if metadata.type ≠ .scalar then
      (none, false, some (.notScalarEntry key))
    else
      match loadFromFileMap s.files (getFilePath hashKey key) with
      | .error e => (none, false, some e)
      | .ok wrapper =>
        match alookup wrapper "data" with
        | none => (none, false, some (.dataFieldMissing key))
        | some value => (some value, true, none)

/-- State transition of a successful `SetList`: write the item slice to the
backing file, overwrite the index entry with a `List` tag, persist the
index. -/
def SetList {α : Type} (hashKey : String → String) (s : CacheState α)
    (key : String) (items : List α) (now : Nat) : CacheState α :=
  let filePath := getFilePath hashKey key
  let s1 : CacheState α :=
    { s with files := saveToFile s.files filePath (.listVal items) }
  let s2 : CacheState α :=
    { s1 with entries := ainsert s1.entries key ⟨.list, now, now⟩ }
  saveRootIndex s2

/-- Result of `GetList`: the `(items, error)` pair, with `Except.ok`
standing for a nil error (a nil item slice is `.ok []`). -/
def GetList {α : Type} (hashKey : String → String) (s : CacheState α)
    (key : String) : Except CacheError (List α) :=
  match alookup s.entries key with
  | none => .error (.notFound key)
  | some metadata =>
    if metadata.type ≠ .list then
      .error (.notListEntry key)
    else
      loadFromFileList s.files (getFilePath hashKey key)

/-- Outcome of the single HTTP GET issued by `GetWeb` on a cache miss:
connection error, or a response with a status code and a body whose read may
itself fail (`none`). -/
inductive FetchOutcome where
  | connError
  | response (status : Nat) (body : Option (List Nat))
deriving DecidableEq, Repr

/-- Failure of the fetch as the source treats it: connection error, non-200
status, or body read failure. -/
def FetchOutcome.isFailure : FetchOutcome → Bool
  | .connError => true
  | .response status body => status ≠ 200 || body.isNone

/-- Fetch-and-store path of `GetWeb` (the code after the cache-hit check):
any fetch failure is returned as an error with the state untouched; a
success writes the byte blob, overwrites the index entry with a `Web` tag
and persists the index.  The boolean records that the network was used. -/
def getWebFetch {α : Type} (hashKey : String → String) (s : CacheState α)
    (url : String) (fetch : FetchOutcome) (now : Nat) :
    Except CacheError (List Nat) × CacheState α × Bool :=
  match fetch with
  | .connError => (.error (.downloadFailed url), s, true)
  | .response status body =>
    if status ≠ 200 then
      (.error (.downloadBadStatus url status), s, true)
    else
      match body with
      | none => (.error (.readBodyFailed url), s, true)
      | some content =>
        let s1 : CacheState α :=
          { s with files := saveToFile s.files (getFilePath hashKey url)
                              (.bytesVal content) }
        let s2 : CacheState α :=
          { s1 with entries := ainsert s1.entries url ⟨.web, now, now⟩ }
        (.ok content, saveRootIndex s2, true)

/-- Behaviour of `GetWeb`: the url is the logical key; a `Web`-tagged entry
is served from its backing file without touching the network (boolean
`false`); any other index state falls through to the fetch path. -/
def GetWeb {α : Type} (hashKey : String → String) (s : CacheState α)
    (url : String) (fetch : FetchOutcome) (now : Nat) :
    Except CacheError (List Nat) × CacheState α × Bool :=
  match alookup s.entries url with
  | some metadata =>
    if metadata.type = .web then
      match loadFromFileBytes s.files (getFilePath hashKey url) with
      | .error e => (.error e, s, false)
      | .ok content => (.ok content, s, false)
    else
      getWebFetch hashKey s url fetch now
  | none => getWebFetch hashKey s url fetch now

/-- Warnings logged by the reconciliation scan. -/
inductive Warning where
  | orphanedFile     (filename : String)
  | missingEntryFile (key : String)
deriving DecidableEq, Repr

/-- Reconciliation scan of `scanDirectory`, run once at construction: delete
stray `.tmp` files, warn about orphaned files without removing them, and
drop from the in-memory index (with a warning) every key whose backing file
is absent.  Warning order within the list abstracts the Go map iteration
order. -/
def scanDirectory {α : Type} (hashKey : String → String) (s : CacheState α) :
    CacheState α × List Warning :=
  let diskFiles : List String := s.files.map Prod.fst
  let expectedFiles : List String :=
    s.entries.map (fun e => hashKey e.1 ++ ".bin")
  let orphanWarnings : List Warning := diskFiles.filterMap (fun n =>
    if n = getRootIndexPath then none
    else if hasSuffix n ".tmp" then none
    else if n ∈ expectedFiles then none
    else some (.orphanedFile n))
  let files1 : FileSystem α := s.files.filter
    (fun f => !(decide (f.1 ≠ getRootIndexPath) && hasSuffix f.1 ".tmp"))
  let keysToRemove : List String := (s.entries.map Prod.fst).filter
    (fun k => !(decide ((hashKey k ++ ".bin") ∈ diskFiles)))
  let missingWarnings : List Warning := keysToRemove.map .missingEntryFile
  let entries1 : Entries :=
    s.entries.filter (fun e => !(decide (e.1 ∈ keysToRemove)))
  (⟨entries1, files1⟩, orphanWarnings ++ missingWarnings)

/-- Result of `loadRootIndex`: decode the index file into an index target
that starts out empty, so a missing file yields the empty index. -/
def loadRootIndex {α : Type} (fs : FileSystem α) : Except CacheError Entries :=
  loadFromFileIndex fs getRootIndexPath

/-- Construction path of `New` over given directory contents: load the root
index (failing construction on a decode error), then reconcile.  The
directory-creation and path-resolution logic of `New` is environmental I/O
outside the model. -/
def New {α : Type} (hashKey : String → String) (fs : FileSystem α) :
    Except CacheError (CacheState α × List Warning) :=
  match loadRootIndex fs with
  | .error e => .error e
  | .ok entries => .ok (scanDirectory hashKey ⟨entries, fs⟩)

/-! Association-list lemmas about the Go-map model. -/

theorem alookup_ainsert_self {β : Type} (l : List (String × β)) (k : String)
    (v : β) : alookup (ainsert l k v) k = some v := by
  simp [ainsert, alookup]

theorem alookup_aremove_ne {β : Type} (l : List (String × β)) {k q : String}
    (h : q ≠ k) : alookup (aremove l k) q = alookup l q := by
  induction l with
  | nil => rfl
  | cons hd tl ih =>
    rcases hd with ⟨a, b⟩
    by_cases hak : a = k
    · subst hak
      have hqa : a ≠ q := fun hc => h hc.symm
      simp [aremove, alookup, hqa, ih]
    · by_cases haq : a = q
      · subst haq
        simp [aremove, alookup, hak]
      · simp [aremove, alookup, hak, haq, ih]

theorem alookup_aremove_self {β : Type} (l : List (String × β)) (k : String) :
    alookup (aremove l k) k = none := by
  induction l with
  | nil => rfl
  | cons hd tl ih =>
    rcases hd with ⟨a, b⟩
    by_cases hak : a = k
    · simp [aremove, hak, ih]
    · simp [aremove, alookup, hak, ih]

theorem alookup_ainsert_ne {β : Type} (l : List (String × β)) {k q : String}
    (v : β) (h : q ≠ k) : alookup (ainsert l k v) q = alookup l q := by
  have hkq : k ≠ q := fun hc => h hc.symm
  simp [ainsert, alookup, hkq, alookup_aremove_ne l h]

theorem aremove_aremove_self {β : Type} (l : List (String × β)) (k : String) :
    aremove (aremove l k) k = aremove l k := by
  induction l with
  | nil => rfl
  | cons hd tl ih =>
    rcases hd with ⟨a, b⟩
    by_cases hak : a = k
    · simp [aremove, hak, ih]
    · simp [aremove, hak, ih]

theorem aremove_comm {β : Type} (l : List (String × β)) (a b : String) :
    aremove (aremove l a) b = aremove (aremove l b) a := by
  by_cases hab : a = b
  · subst hab; rfl
  · have hba : b ≠ a := fun h => hab h.symm
    induction l with
    | nil => rfl
    | cons hd tl ih =>
      rcases hd with ⟨p, v⟩
      by_cases hpa : p = a
      · subst hpa
        simp [aremove, hab, ih]
      · by_cases hpb : p = b
        · subst hpb
          simp [aremove, hba, ih]
        · simp [aremove, hpa, hpb, ih]

theorem aremove_ainsert_self {β : Type} (l : List (String × β)) (k : String)
    (v : β) : aremove (ainsert l k v) k = aremove l k := by
  simp [ainsert, aremove, aremove_aremove_self]

theorem ainsert_ainsert_self {β : Type} (l : List (String × β)) (k : String)
    (v w : β) : ainsert (ainsert l k v) k w = ainsert l k w := by
  simp [ainsert, aremove, aremove_aremove_self]

theorem alookup_mem_keys {β : Type} {l : List (String × β)} {k : String}
    {v : β} (h : alookup l k = some v) : k ∈ l.map Prod.fst := by
  induction l with
  | nil => simp [alookup] at h
  | cons hd tl ih =>
    rcases hd with ⟨a, b⟩
    by_cases hak : a = k
    · simp [hak]
    · simp [alookup, hak] at h
      simp [ih h]

theorem alookup_filter_none {β : Type} (p : String × β → Bool)
    (l : List (String × β)) (k : String) (hp : ∀ v, p (k, v) = false) :
    alookup (l.filter p) k = none := by
  induction l with
  | nil => rfl
  | cons hd tl ih =>
    rcases hd with ⟨a, b⟩
    by_cases hak : a = k
    · subst hak
      simp [List.filter_cons, hp b, ih]
    · rw [List.filter_cons]
      cases hpb : p (a, b)
      · simpa using ih
      · simpa [alookup, hak] using ih

/-! Unfolding lemmas for the mutating operations. -/

theorem Set_entries {α : Type} (hashKey : String → String) (s : CacheState α)
    (key : String) (value : α) (now : Nat) :
    (Set hashKey s key value now).entries =
      ainsert s.entries key ⟨.scalar, now, now⟩ := rfl

theorem Set_files {α : Type} (hashKey : String → String) (s : CacheState α)
    (key : String) (value : α) (now : Nat) :
    (Set hashKey s key value now).files =
      ainsert (ainsert s.files (getFilePath hashKey key)
          (.mapVal [("data", value)]))
        getRootIndexPath (.indexVal (ainsert s.entries key ⟨.scalar, now, now⟩)) :=
  rfl

theorem SetList_entries {α : Type} (hashKey : String → String)
    (s : CacheState α) (key : String) (items : List α) (now : Nat) :
    (SetList hashKey s key items now).entries =
      ainsert s.entries key ⟨.list, now, now⟩ := rfl

theorem SetList_files {α : Type} (hashKey : String → String) (s : CacheState α)
    (key : String) (items : List α) (now : Nat) :
    (SetList hashKey s key items now).files =
      ainsert (ainsert s.files (getFilePath hashKey key) (.listVal items))
        getRootIndexPath (.indexVal (ainsert s.entries key ⟨.list, now, now⟩)) :=
  rfl

/-- C1: for every key and payload, a successful `Set` followed by `Get` on
the same key returns the stored value with `found = true` and a nil error,
and a successful `SetList` followed by `GetList` returns exactly the stored
items in their original order.  The hypothesis separates the digest-named
backing file from the fixed index file name, which holds for the
64-character SHA-256 hex digest of the source. -/
theorem claim_c1_set_get_roundtrip {α : Type} (hashKey : String → String)
    (s : CacheState α) (k : String) (v : α) (xs : List α) (t : Nat)
    (hpath : getFilePath hashKey k ≠ getRootIndexPath) :
    Get hashKey (Set hashKey s k v t) k = (some v, true, none) ∧
    GetList hashKey (SetList hashKey s k xs t) k = .ok xs := by
  constructor
  · have h1 : alookup (Set hashKey s k v t).entries k =
        some ⟨.scalar, t, t⟩ := by
      rw [Set_entries, alookup_ainsert_self]
    have h2 : alookup (Set hashKey s k v t).files (getFilePath hashKey k) =
        some (.mapVal [("data", v)]) := by
      rw [Set_files, alookup_ainsert_ne _ _ hpath, alookup_ainsert_self]
    simp only [Get, h1, h2, loadFromFileMap]
    simp [alookup]
  · have h1 : alookup (SetList hashKey s k xs t).entries k =
        some ⟨.list, t, t⟩ := by
      rw [SetList_entries, alookup_ainsert_self]
    have h2 : alookup (SetList hashKey s k xs t).files
        (getFilePath hashKey k) = some (.listVal xs) := by
      rw [SetList_files, alookup_ainsert_ne _ _ hpath, alookup_ainsert_self]
    simp [GetList, h1, h2, loadFromFileList]

theorem claim_c1_witness :
    getFilePath (fun _ => "h") "k" ≠ getRootIndexPath ∧
    Get (fun _ => "h") (Set (fun _ => "h") (⟨[], []⟩ : CacheState Nat) "k" 5 1)
        "k" = (some 5, true, none) :=
  ⟨by decide,
   (claim_c1_set_get_roundtrip (fun _ => "h") ⟨[], []⟩ "k" 5 [] 1 (by decide)).1⟩

/-- C3: for a key absent from the index, `Get` returns the miss triple with
no error and `GetList` returns the distinguished not-found error wrapping
`ErrNotFound`, never a nil-nil pair. -/
theorem claim_c3_absence_semantics {α : Type} (hashKey : String → String)
    (s : CacheState α) (k : String) (h : alookup s.entries k = none) :
    Get hashKey s k = (none, false, none) ∧
    GetList hashKey s k = .error (.notFound k) := by
  constructor
  · simp [Get, h]
  · simp [GetList, h]

theorem claim_c3_witness :
    alookup (⟨[], []⟩ : CacheState Nat).entries "missing" = none ∧
    GetList (fun _ => "h") (⟨[], []⟩ : CacheState Nat) "missing" =
      .error (.notFound "missing") :=
  ⟨rfl,
   (claim_c3_absence_semantics (fun _ => "h") ⟨[], []⟩ "missing" rfl).2⟩

/-- C4: any indexed key whose tag differs from the tag the accessor expects
— `List` or `Web` under `Get`, `Scalar` or `Web` under `GetList` — is a
type-mismatch error, not a silent miss or the stored value; in particular
`Set` then `GetList` errors and `SetList` then `Get` errors; and `Get`
never reports `found = true` together with a non-nil error. -/
theorem claim_c4_type_isolation {α : Type} (hashKey : String → String)
    (s : CacheState α) (k q : String) (v : α) (xs : List α) (t : Nat) :
    (∀ md, alookup s.entries k = some md → md.type ≠ EntryType.scalar →
       Get hashKey s k = (none, false, some (.notScalarEntry k))) ∧
    (∀ md, alookup s.entries k = some md → md.type ≠ EntryType.list →
       GetList hashKey s k = .error (.notListEntry k)) ∧
    GetList hashKey (Set hashKey s k v t) k = .error (.notListEntry k) ∧
    Get hashKey (SetList hashKey s k xs t) k =
      (none, false, some (.notScalarEntry k)) ∧
    ((Get hashKey s q).2.1 = true → (Get hashKey s q).2.2 = none) := by
  refine ⟨?_, ?_, ?_, ?_, ?_⟩
  · intro md hmd hty
    simp [Get, hmd, hty]
  · intro md hmd hty
    simp [GetList, hmd, hty]
  · simp [GetList, Set_entries, alookup_ainsert_self]
  · simp [Get, SetList_entries, alookup_ainsert_self]
  · unfold Get
    cases hlk : alookup s.entries q with
    | none => simp
    | some md =>
      by_cases hty : md.type ≠ EntryType.scalar
      · simp [hty]
      · simp only [hty, if_false]
        cases hload : loadFromFileMap s.files (getFilePath hashKey q) with
        | error e => simp
        | ok wrapper =>
          cases hdat : alookup wrapper "data" <;> simp [hdat]

theorem claim_c4_witness :
    Get (fun _ => "h") (⟨[("u", ⟨.web, 0, 0⟩)], []⟩ : CacheState Nat) "u" =
      (none, false, some (.notScalarEntry "u")) ∧
    GetList (fun _ => "h") (⟨[("u", ⟨.web, 0, 0⟩)], []⟩ : CacheState Nat)
        "u" = .error (.notListEntry "u") ∧
    GetList (fun _ => "h")
        (Set (fun _ => "h") (⟨[], []⟩ : CacheState Nat) "k" 5 1) "k" =
      .error (.notListEntry "k") := by
  refine ⟨?_, ?_, ?_⟩
  · exact (claim_c4_type_isolation (fun _ => "h")
      (⟨[("u", ⟨.web, 0, 0⟩)], []⟩ : CacheState Nat) "u" "q" 5 [] 1).1
      ⟨.web, 0, 0⟩ (by decide) (by decide)
  · exact (claim_c4_type_isolation (fun _ => "h")
      (⟨[("u", ⟨.web, 0, 0⟩)], []⟩ : CacheState Nat) "u" "q" 5 [] 1).2.1
      ⟨.web, 0, 0⟩ (by decide) (by decide)
  · exact (claim_c4_type_isolation (fun _ => "h")
      (⟨[], []⟩ : CacheState Nat) "k" "q" 5 [] 1).2.2.1

/-! Observational equality helpers: `Get` and `GetList` read the state only
through `alookup` on the index and on the backing file of the queried key. -/

theorem Get_ext {α : Type} (hashKey : String → String) (s1 s2 : CacheState α)
    (q : String) (he : alookup s1.entries q = alookup s2.entries q)
    (hf : ∀ p, alookup s1.files p = alookup s2.files p) :
    Get hashKey s1 q = Get hashKey s2 q := by
  have hl : loadFromFileMap s1.files (getFilePath hashKey q) =
      loadFromFileMap s2.files (getFilePath hashKey q) := by
    unfold loadFromFileMap
    rw [hf]
  unfold Get
  rw [he, hl]

theorem GetList_ext {α : Type} (hashKey : String → String)
    (s1 s2 : CacheState α) (q : String)
    (he : alookup s1.entries q = alookup s2.entries q)
    (hf : ∀ p, alookup s1.files p = alookup s2.files p) :
    GetList hashKey s1 q = GetList hashKey s2 q := by
  have hl : loadFromFileList s1.files (getFilePath hashKey q) =
      loadFromFileList s2.files (getFilePath hashKey q) := by
    unfold loadFromFileList
    rw [hf]
  unfold GetList
  rw [he, hl]

theorem Set_Set_entries_alookup {α : Type} (hashKey : String → String)
    (s : CacheState α) (k : String) (v : α) (t1 t2 : Nat) (q : String) :
    alookup (Set hashKey (Set hashKey s k v t1) k v t2).entries q =
      alookup (Set hashKey s k v t2).entries q := by
  by_cases hq : q = k
  · subst hq
    simp [Set_entries, alookup_ainsert_self]
  · simp [Set_entries, alookup_ainsert_ne _ _ hq]

theorem Set_Set_files_alookup {α : Type} (hashKey : String → String)
    (s : CacheState α) (k : String) (v : α) (t1 t2 : Nat) (p : String) :
    alookup (Set hashKey (Set hashKey s k v t1) k v t2).files p =
      alookup (Set hashKey s k v t2).files p := by
  by_cases hip : p = getRootIndexPath
  · subst hip
    simp [Set_files, Set_entries, alookup_ainsert_self, ainsert_ainsert_self]
  · by_cases hpk : p = getFilePath hashKey k
    · subst hpk
      simp [Set_files, alookup_ainsert_ne _ _ hip, alookup_ainsert_self]
    · simp [Set_files, alookup_ainsert_ne _ _ hip, alookup_ainsert_ne _ _ hpk]

/-- C9: two successive `Set` calls with the same key and value leave the
cache observationally equal, through `Get`, `GetList` and the indexed-key map,
to a single `Set`: the second call overwrites the entry in place. -/
theorem claim_c9_set_idempotent {α : Type} (hashKey : String → String)
    (s : CacheState α) (k : String) (v : α) (t1 t2 : Nat) :
    (∀ q, Get hashKey (Set hashKey (Set hashKey s k v t1) k v t2) q =
       Get hashKey (Set hashKey s k v t2) q) ∧
    (∀ q, GetList hashKey (Set hashKey (Set hashKey s k v t1) k v t2) q =
       GetList hashKey (Set hashKey s k v t2) q) ∧
    (∀ q, alookup (Set hashKey (Set hashKey s k v t1) k v t2).entries q =
       alookup (Set hashKey s k v t2).entries q) :=
  ⟨fun q => Get_ext hashKey _ _ q (Set_Set_entries_alookup hashKey s k v t1 t2 q)
      (Set_Set_files_alookup hashKey s k v t1 t2),
   fun q => GetList_ext hashKey _ _ q (Set_Set_entries_alookup hashKey s k v t1 t2 q)
      (Set_Set_files_alookup hashKey s k v t1 t2),
   Set_Set_entries_alookup hashKey s k v t1 t2⟩

/-! Helper lemmas about `GetWeb` and its fetch path. -/

theorem saveRootIndex_entries {α : Type} (s : CacheState α) :
    (saveRootIndex s).entries = s.entries := rfl

theorem GetWeb_miss {α : Type} (hashKey : String → String) (s : CacheState α)
    (url : String)
    (hmiss : ∀ md, alookup s.entries url = some md → md.type ≠ EntryType.web)
    (fetch : FetchOutcome) (now : Nat) :
    GetWeb hashKey s url fetch now = getWebFetch hashKey s url fetch now := by
  unfold GetWeb
  cases hlk : alookup s.entries url with
  | none => rfl
  | some md => simp [hmiss md hlk]

theorem getWebFetch_uses_network {α : Type} (hashKey : String → String)
    (s : CacheState α) (url : String) (fetch : FetchOutcome) (now : Nat) :
    (getWebFetch hashKey s url fetch now).2.2 = true := by
  cases fetch with
  | connError => rfl
  | response status body =>
    unfold getWebFetch
    by_cases hst : status = 200
    · subst hst
      cases body <;> simp
    · simp [hst]

theorem getWebFetch_failure {α : Type} (hashKey : String → String)
    (s : CacheState α) (url : String) (fetch : FetchOutcome) (now : Nat)
    (hfail : fetch.isFailure = true) :
    (∃ e, (getWebFetch hashKey s url fetch now).1 = .error e) ∧
    (getWebFetch hashKey s url fetch now).2.1 = s ∧
    (getWebFetch hashKey s url fetch now).2.2 = true := by
  cases fetch with
  | connError => exact ⟨⟨_, rfl⟩, rfl, rfl⟩
  | response status body =>
    unfold FetchOutcome.isFailure at hfail
    by_cases hst : status = 200
    · subst hst
      cases body with
      | none => exact ⟨⟨_, rfl⟩, rfl, rfl⟩
      | some b => simp at hfail
    · refine ⟨⟨.downloadBadStatus url status, ?_⟩, ?_, ?_⟩ <;>
        simp [getWebFetch, hst]

theorem getWebFetch_success {α : Type} (hashKey : String → String)
    (s : CacheState α) (url : String) (content : List Nat) (now : Nat) :
    getWebFetch hashKey s url (.response 200 (some content)) now =
      (.ok content,
       saveRootIndex ⟨ainsert s.entries url ⟨.web, now, now⟩,
         ainsert s.files (getFilePath hashKey url) (.bytesVal content)⟩,
       true) := by
  simp [getWebFetch, saveToFile]

/-- C2: a `Web`-tagged entry is served from its backing file with no network
activity and no state change, and a failed fetch (connection error, non-200
status, or body read failure) returns an error, caches nothing, changes no
file and no index entry, and leaves the next call performing the network
fetch again. -/
theorem claim_c2_getweb_hit_and_failure {α : Type} (hashKey : String → String)
    (s : CacheState α) (url : String) :
    (∀ md, alookup s.entries url = some md → md.type = EntryType.web →
       ∀ fetch now, (GetWeb hashKey s url fetch now).2.2 = false) ∧
    (∀ md bs, alookup s.entries url = some md → md.type = EntryType.web →
       alookup s.files (getFilePath hashKey url) = some (.bytesVal bs) →
       ∀ fetch now, GetWeb hashKey s url fetch now = (.ok bs, s, false)) ∧
    (∀ fetch now,
       (∀ md, alookup s.entries url = some md → md.type ≠ EntryType.web) →
       fetch.isFailure = true →
       (∃ e, (GetWeb hashKey s url fetch now).1 = .error e) ∧
       (GetWeb hashKey s url fetch now).2.1 = s ∧
       (GetWeb hashKey s url fetch now).2.2 = true ∧
       (∀ fetch2 now2,
          (GetWeb hashKey (GetWeb hashKey s url fetch now).2.1 url
              fetch2 now2).2.2 = true)) := by
  refine ⟨?_, ?_, ?_⟩
  · intro md hmd hweb fetch now
    simp only [GetWeb, hmd, hweb]
    cases hl : loadFromFileBytes s.files (getFilePath hashKey url) <;>
      simp [hl]
  · intro md bs hmd hweb hfile fetch now
    simp [GetWeb, hmd, hweb, loadFromFileBytes, hfile]
  · intro fetch now hmiss hfail
    rw [GetWeb_miss hashKey s url hmiss fetch now]
    obtain ⟨he, hst, hnet⟩ := getWebFetch_failure hashKey s url fetch now hfail
    refine ⟨he, hst, hnet, ?_⟩
    intro fetch2 now2
    rw [hst, GetWeb_miss hashKey s url hmiss fetch2 now2]
    exact getWebFetch_uses_network hashKey s url fetch2 now2

theorem claim_c2_witness :
    GetWeb (fun _ => "h")
        (⟨[("u", ⟨.web, 0, 0⟩)], [("h.bin", .bytesVal [7])]⟩ : CacheState Nat)
        "u" .connError 5 =
      (.ok [7], ⟨[("u", ⟨.web, 0, 0⟩)], [("h.bin", .bytesVal [7])]⟩, false) ∧
    (GetWeb (fun _ => "h") (⟨[], []⟩ : CacheState Nat) "u" .connError 5).2.1 =
      ⟨[], []⟩ :=
  by
  constructor
  · exact (claim_c2_getweb_hit_and_failure (fun _ => "h")
      ⟨[("u", ⟨.web, 0, 0⟩)], [("h.bin", .bytesVal [7])]⟩ "u").2.1 ⟨.web, 0, 0⟩
      [7] (by decide) rfl (by decide) .connError 5
  · exact ((claim_c2_getweb_hit_and_failure (fun _ => "h")
      (⟨[], []⟩ : CacheState Nat) "u").2.2 .connError 5
      (fun md hm => by simp [alookup] at hm) rfl).2.1

theorem claim_c5_counterexample :
    (alookup (⟨[("k", ⟨.scalar, 10, 10⟩)], []⟩ : CacheState Nat).entries
        "k").map Metadata.createdAt = some 10 ∧
    (alookup (Set (fun _ => "h")
          (⟨[("k", ⟨.scalar, 10, 10⟩)], []⟩ : CacheState Nat) "k" 5
          20).entries "k").map Metadata.createdAt = some 20 := by decide

/-- C5 (amended): every mutating operation — `Set`, `SetList` and the
cache-miss success path of `GetWeb` — stamps both `created_at` and
`updated_at` with the current time; `created_at` is overwritten on every
mutation of an existing key rather than preserved from first insertion. -/
theorem claim_c5_amended_timestamps {α : Type} (hashKey : String → String)
    (s : CacheState α) (k url : String) (v : α) (xs : List α)
    (body : List Nat) (t : Nat) :
    alookup (Set hashKey s k v t).entries k = some ⟨.scalar, t, t⟩ ∧
    alookup (SetList hashKey s k xs t).entries k = some ⟨.list, t, t⟩ ∧
    ((∀ md, alookup s.entries url = some md → md.type ≠ EntryType.web) →
       alookup ((GetWeb hashKey s url (.response 200 (some body))
           t).2.1).entries url = some ⟨.web, t, t⟩) := by
  refine ⟨?_, ?_, ?_⟩
  · rw [Set_entries, alookup_ainsert_self]
  · rw [SetList_entries, alookup_ainsert_self]
  · intro hmiss
    rw [GetWeb_miss hashKey s url hmiss _ t, getWebFetch_success,
      saveRootIndex_entries]
    exact alookup_ainsert_self _ _ _

theorem claim_c5_witness :
    alookup (Set (fun _ => "h") (⟨[], []⟩ : CacheState Nat) "k" 5 7).entries
        "k" = some ⟨.scalar, 7, 7⟩ :=
  (claim_c5_amended_timestamps (fun _ => "h") ⟨[], []⟩ "k" "u" 5 [] [] 7).1

theorem claim_c6_counterexample :
    GetList (fun _ => "h") (⟨[("k", ⟨.list, 0, 0⟩)], []⟩ : CacheState Nat)
        "k" = .ok [] ∧
    GetList (fun _ => "h")
        (⟨[("k", ⟨.list, 0, 0⟩)], [("h.bin", .listVal [])]⟩ : CacheState Nat)
        "k" = .ok [] := by decide

/-- C6 (amended): a read of an absent backing file returns success with the
decode target left at its zero value — not a distinguished result — so an
absent file is indistinguishable from a present empty payload, and `GetList`
of an indexed key whose backing file has disappeared after construction
returns the nil items with a nil error. -/
theorem claim_c6_amended_absent_file {α : Type} (hashKey : String → String)
    (s : CacheState α) (k : String) (md : Metadata)
    (hmd : alookup s.entries k = some md) (hty : md.type = EntryType.list)
    (hfile : alookup s.files (getFilePath hashKey k) = none) :
    loadFromFileList s.files (getFilePath hashKey k) =
      (.ok [] : Except CacheError (List α)) ∧
    GetList hashKey s k = .ok [] := by
  have hl : loadFromFileList s.files (getFilePath hashKey k) =
      (.ok [] : Except CacheError (List α)) := by
    unfold loadFromFileList
    rw [hfile]
  exact ⟨hl, by simp [GetList, hmd, hty, hl]⟩

theorem claim_c6_witness :
    GetList (fun _ => "g") (⟨[("k", ⟨.list, 3, 3⟩)], []⟩ : CacheState Nat)
        "k" = .ok [] :=
  (claim_c6_amended_absent_file (fun _ => "g") ⟨[("k", ⟨.list, 3, 3⟩)], []⟩
      "k" ⟨.list, 3, 3⟩ (by decide) rfl rfl).2

/-- C10: a key indexed under a `Scalar` or `List` tag is treated by `GetWeb`
as a cache miss — no type-mismatch error: the network is consulted, and a
successful fetch overwrites the entry with a `Web` tag, after which `Get`
and `GetList` on that key surface type-mismatch errors. -/
theorem claim_c10_getweb_asymmetry {α : Type} (hashKey : String → String)
    (s : CacheState α) (url : String) (md : Metadata) (body : List Nat)
    (t : Nat) (hmd : alookup s.entries url = some md)
    (htag : md.type = EntryType.scalar ∨ md.type = EntryType.list) :
    (∀ fetch now, (GetWeb hashKey s url fetch now).2.2 = true) ∧
    (GetWeb hashKey s url (.response 200 (some body)) t).1 = .ok body ∧
    alookup ((GetWeb hashKey s url (.response 200 (some body))
        t).2.1).entries url = some ⟨.web, t, t⟩ ∧
    Get hashKey ((GetWeb hashKey s url (.response 200 (some body)) t).2.1)
        url = (none, false, some (.notScalarEntry url)) ∧
    GetList hashKey ((GetWeb hashKey s url (.response 200 (some body))
        t).2.1) url = .error (.notListEntry url) := by
  have hweb : md.type ≠ EntryType.web := by
    rcases htag with h | h <;> simp [h]
  have hmiss : ∀ md2, alookup s.entries url = some md2 →
      md2.type ≠ EntryType.web := by
    intro md2 h2
    have : md = md2 := Option.some.inj (hmd.symm.trans h2)
    exact this ▸ hweb
  have hafter : alookup ((GetWeb hashKey s url (.response 200 (some body))
      t).2.1).entries url = some ⟨.web, t, t⟩ := by
    rw [GetWeb_miss hashKey s url hmiss _ t, getWebFetch_success,
      saveRootIndex_entries]
    exact alookup_ainsert_self _ _ _
  refine ⟨?_, ?_, hafter, ?_, ?_⟩
  · intro fetch now
    rw [GetWeb_miss hashKey s url hmiss fetch now]
    exact getWebFetch_uses_network hashKey s url fetch now
  · rw [GetWeb_miss hashKey s url hmiss _ t, getWebFetch_success]
  · simp [Get, hafter]
  · simp [GetList, hafter]

theorem claim_c10_witness :
    Get (fun _ => "h")
        ((GetWeb (fun _ => "h")
            (⟨[("u", ⟨.scalar, 0, 0⟩)], []⟩ : CacheState Nat) "u"
            (.response 200 (some [1])) 9).2.1) "u" =
      (none, false, some (.notScalarEntry "u")) :=
  (claim_c10_getweb_asymmetry (fun _ => "h") ⟨[("u", ⟨.scalar, 0, 0⟩)], []⟩
      "u" ⟨.scalar, 0, 0⟩ [1] 9 (by decide) (Or.inl rfl)).2.2.2.1

/-! Unfolding lemmas for the reconciliation scan. -/

theorem scan_files_eq {α : Type} (hashKey : String → String)
    (s : CacheState α) :
    (scanDirectory hashKey s).1.files =
      s.files.filter
        (fun f => !(decide (f.1 ≠ getRootIndexPath) && hasSuffix f.1 ".tmp")) :=
  rfl

theorem scan_entries_eq {α : Type} (hashKey : String → String)
    (s : CacheState α) :
    (scanDirectory hashKey s).1.entries =
      s.entries.filter (fun e => !(decide (e.1 ∈
        (s.entries.map Prod.fst).filter
          (fun k => !(decide ((hashKey k ++ ".bin") ∈
            s.files.map Prod.fst)))))) := rfl

theorem scan_warnings_eq {α : Type} (hashKey : String → String)
    (s : CacheState α) :
    (scanDirectory hashKey s).2 =
      (s.files.map Prod.fst).filterMap (fun n =>
        if n = getRootIndexPath then none
        else if hasSuffix n ".tmp" then none
        else if n ∈ s.entries.map (fun e => hashKey e.1 ++ ".bin") then none
        else some (.orphanedFile n)) ++
      ((s.entries.map Prod.fst).filter
        (fun k => !(decide ((hashKey k ++ ".bin") ∈
          s.files.map Prod.fst)))).map .missingEntryFile := rfl

/-- C7: the construction-time reconciliation deletes every stray `.tmp`
file, warns about but keeps files that are neither the index file, a temp
file, nor the backing file of an indexed key, warns about and drops from
the in-memory index every key whose backing file is missing so the key
reads as absent, and never fails construction when the index loaded. -/
theorem claim_c7_reconciliation {α : Type} (hashKey : String → String)
    (s : CacheState α) :
    (∀ n v, (n, v) ∈ (scanDirectory hashKey s).1.files →
       hasSuffix n ".tmp" = false) ∧
    (∀ n v, (n, v) ∈ s.files → n ≠ getRootIndexPath →
       hasSuffix n ".tmp" = false →
       (∀ e, e ∈ s.entries → hashKey e.1 ++ ".bin" ≠ n) →
       Warning.orphanedFile n ∈ (scanDirectory hashKey s).2 ∧
       (n, v) ∈ (scanDirectory hashKey s).1.files) ∧
    (∀ k md, alookup s.entries k = some md →
       getFilePath hashKey k ∉ s.files.map Prod.fst →
       Warning.missingEntryFile k ∈ (scanDirectory hashKey s).2 ∧
       alookup (scanDirectory hashKey s).1.entries k = none ∧
       Get hashKey (scanDirectory hashKey s).1 k = (none, false, none)) ∧
    (∀ (fs : FileSystem α) e, loadRootIndex fs = .ok e →
       New hashKey fs = .ok (scanDirectory hashKey ⟨e, fs⟩)) := by
  refine ⟨?_, ?_, ?_, ?_⟩
  · intro n v hmem
    rw [scan_files_eq] at hmem
    have hpred := (List.mem_filter.mp hmem).2
    by_cases hn : n = getRootIndexPath
    · subst hn
      decide
    · simpa [hn] using hpred
  · intro n v hmem hnip hnt hnotexp
    constructor
    · rw [scan_warnings_eq]
      refine List.mem_append_left _ (List.mem_filterMap.mpr ⟨n, ?_, ?_⟩)
      · exact List.mem_map_of_mem Prod.fst hmem
      · have hexp : n ∉ s.entries.map (fun e => hashKey e.1 ++ ".bin") := by
          intro hc
          obtain ⟨e, he, heq⟩ := List.mem_map.mp hc
          exact hnotexp e he heq
        simp [hnip, hnt, hexp]
    · rw [scan_files_eq]
      exact List.mem_filter.mpr ⟨hmem, by simp [hnt]⟩
  · intro k md hmd hnofile
    have hkmem : k ∈ s.entries.map Prod.fst := alookup_mem_keys hmd
    have hkrem : k ∈ (s.entries.map Prod.fst).filter
        (fun q => !(decide ((hashKey q ++ ".bin") ∈ s.files.map Prod.fst))) := by
      refine List.mem_filter.mpr ⟨hkmem, ?_⟩
      simp only [getFilePath] at hnofile
      simp [hnofile]
    have hgone : alookup (scanDirectory hashKey s).1.entries k = none := by
      rw [scan_entries_eq]
      exact alookup_filter_none _ _ _ (fun v => by simp [hkrem])
    refine ⟨?_, hgone, ?_⟩
    · rw [scan_warnings_eq]
      exact List.mem_append_right _ (List.mem_map_of_mem _ hkrem)
    · simp [Get, hgone]
  · intro fs e hload
    simp [New, hload]

theorem claim_c7_witness :
    Warning.missingEntryFile "k" ∈
      (scanDirectory (fun _ => "h")
        (⟨[("k", ⟨.scalar, 1, 1⟩)], []⟩ : CacheState Nat)).2 :=
  ((claim_c7_reconciliation (fun _ => "h")
      ⟨[("k", ⟨.scalar, 1, 1⟩)], []⟩).2.2.1 "k" ⟨.scalar, 1, 1⟩ (by decide)
      (by decide)).1

/-- C8: construction over a directory without an index file starts from an
empty index and succeeds, while an index file that decodes to the wrong
shape fails construction with an error. -/
theorem claim_c8_construction {α : Type} (hashKey : String → String)
    (fs : FileSystem α) :
    (alookup fs getRootIndexPath = none →
       ∃ st warns, New hashKey fs = .ok (st, warns) ∧ st.entries = []) ∧
    (∀ g, alookup fs getRootIndexPath = some g →
       (∀ e, g ≠ GobValue.indexVal e) →
       New hashKey fs = .error (.decodeFailed getRootIndexPath)) := by
  constructor
  · intro h
    refine ⟨(scanDirectory hashKey ⟨[], fs⟩).1,
      (scanDirectory hashKey ⟨[], fs⟩).2, ?_, ?_⟩
    · simp [New, loadRootIndex, loadFromFileIndex, h]
    · rw [scan_entries_eq]
      rfl
  · intro g hg hne
    cases g with
    | indexVal e => exact absurd rfl (hne e)
    | mapVal m => simp [New, loadRootIndex, loadFromFileIndex, hg]
    | listVal xs => simp [New, loadRootIndex, loadFromFileIndex, hg]
    | bytesVal bs => simp [New, loadRootIndex, loadFromFileIndex, hg]

theorem claim_c8_witness :
    New (fun _ => "h") ([("root.index.bin", .bytesVal [1])] : FileSystem Nat) =
      .error (.decodeFailed getRootIndexPath) :=
  (claim_c8_construction (fun _ => "h") _).2 (GobValue.bytesVal [1])
    (by decide) (fun e h => by simp at h)

end ProxyCache
